import Mathlib

/-!
Verification development for the forensics photo-capture app.

The embedding models:
* the transcript normalization and the two voice-command regular
  expressions from src/util/constants.ts, via a small backtracking
  matcher that follows the JS leftmost-greedy semantics for the
  pattern constructs these two regexes use (literals, greedy star and
  plus over single-character classes, and capture groups);
* the transcription handler, the timed capture scheduler, the photo
  ingestion pipeline, and the two HTTP photo routes from the main
  server source file.

Text is represented as `List Char`; machine timestamps as `Nat`
(milliseconds).
-/

/-- Whitespace class of the JS regex `\s` (the cases relevant to
transcripts: space, tab, newline, carriage return, form feed,
vertical tab, no-break space). -/
def jsWs (c : Char) : Bool :=
  c = ' ' || c = '\t' || c = '\n' || c = '\r' || c = '\x0c' || c = '\x0b' || c = ' '

/-- The JS regex `.` (any character except a line terminator). -/
def jsDot (c : Char) : Bool :=
  !(c = '\n' || c = '\r' || c = ' ' || c = ' ')

/-- The JS regex word class `\w` = [A-Za-z0-9_]. -/
def jsWordChar (c : Char) : Bool :=
  ('a' ≤ c && c ≤ 'z') || ('A' ≤ c && c ≤ 'Z') || ('0' ≤ c && c ≤ '9') || c = '_'

/-- The character class `[^for]` used by the scene capture group of
START_RECORDING_REGEX: any character other than the letters f, o, r. -/
def nonForChar (c : Char) : Bool :=
  !(c = 'f' || c = 'o' || c = 'r')

/-- Replace every maximal whitespace run by the single character `r`,
as the JS `replace` of the pattern `\s+` does.  The boolean argument
records whether the previous character was whitespace. -/
def collapseWsWith (r : Char) : Bool → List Char → List Char
  | _, [] => []
  | prevWs, c :: cs =>
    if jsWs c then
      if prevWs then collapseWsWith r true cs
      else r :: collapseWsWith r true cs
    else c :: collapseWsWith r false cs

/-- JS `trim`: remove whitespace from both ends. -/
def trimWs (l : List Char) : List Char :=
  ((l.dropWhile jsWs).reverse.dropWhile jsWs).reverse

/-- Transcript normalization performed by the transcription handler:
lowercase, strip every character that is neither a word character nor
whitespace, collapse whitespace runs to single spaces, trim.
(ASCII case folding; the app only ever sees ASCII anchors.) -/
def normalizeTranscript (l : List Char) : List Char :=
  trimWs (collapseWsWith ' ' false ((l.map Char.toLower).filter fun c => jsWordChar c || jsWs c))

/-- Label normalization applied to the two captured groups:
`trim`, then replace whitespace runs by single underscores, then
lowercase. -/
def normalizeLabel (l : List Char) : List Char :=
  (collapseWsWith '_' false (trimWs l)).map Char.toLower

/-- Captured groups of a regex match: group 1 and group 2. -/
structure Caps where
  g1 : Option (List Char)
  g2 : Option (List Char)
deriving DecidableEq, Repr

/-- Pattern items sufficient for the two voice-command regexes:
literal runs, greedy star and plus over a one-character class, and a
capturing greedy plus over a one-character class. -/
inductive RItem where
  | lit (w : List Char)
  | star (p : Char → Bool)
  | plus (p : Char → Bool)
  | cap (idx : Nat) (p : Char → Bool)

/-- Record a captured group. -/
def setCap (caps : Caps) (idx : Nat) (v : List Char) : Caps :=
  if idx = 1 then ⟨some v, caps.g2⟩ else ⟨caps.g1, some v⟩

/-- Try `f n`, `f (n-1)`, ..., `f 0` in that order and return the
first success: the greedy backtracking order of a star. -/
def firstSome (f : Nat → Option Caps) : Nat → Option Caps
  | 0 => f 0
  | n + 1 => (f (n + 1)).orElse fun _ => firstSome f n

/-- Try `f n`, ..., `f 1` in that order: the greedy backtracking order
of a plus (at least one character). -/
def firstSomePos (f : Nat → Option Caps) : Nat → Option Caps
  | 0 => none
  | n + 1 => (f (n + 1)).orElse fun _ => firstSomePos f n

/-- Backtracking matcher for a pattern suffix against a string suffix,
in the JS priority order: a greedy quantifier first consumes the
maximal run of its class and gives characters back one at a time when
the continuation fails.  The match is not end-anchored. -/
def runPat : List RItem → List Char → Caps → Option Caps
  | [], _, caps => some caps
  | .lit w :: ps, s, caps =>
    if w.isPrefixOf s then runPat ps (s.drop w.length) caps else none
  | .star p :: ps, s, caps =>
    firstSome (fun j => runPat ps (s.drop j) caps) (s.takeWhile p).length
  | .plus p :: ps, s, caps =>
    firstSomePos (fun j => runPat ps (s.drop j) caps) (s.takeWhile p).length
  | .cap idx p :: ps, s, caps =>
    firstSomePos (fun j => runPat ps (s.drop j) (setCap caps idx (s.take j))) (s.takeWhile p).length

/-- Leftmost match: try each start position from the left and return
the captures of the first position at which the pattern matches, as
the JS `String.match` with a non-global regex does. -/
def execRegex (pat : List RItem) : List Char → Option Caps
  | [] => runPat pat [] ⟨none, none⟩
  | s@(_ :: t) => (runPat pat s ⟨none, none⟩).orElse fun _ => execRegex pat t

/-- START_RECORDING_REGEX from src/util/constants.ts:
`dexter.*start.*recording.*for.*scene\s+([^for]+).*for.*object\s+(.+)`
(the `i` flag is absorbed by the lowercasing the handler performs
before matching). -/
def START_RECORDING_REGEX : List RItem :=
  [.lit "dexter".toList, .star jsDot,
   .lit "start".toList, .star jsDot,
   .lit "recording".toList, .star jsDot,
   .lit "for".toList, .star jsDot,
   .lit "scene".toList, .plus jsWs,
   .cap 1 nonForChar, .star jsDot,
   .lit "for".toList, .star jsDot,
   .lit "object".toList, .plus jsWs,
   .cap 2 jsDot]

/-- STOP_RECORDING_REGEX from src/util/constants.ts:
`dexter.*stop.*recording`. -/
def STOP_RECORDING_REGEX : List RItem :=
  [.lit "dexter".toList, .star jsDot,
   .lit "stop".toList, .star jsDot,
   .lit "recording".toList]

/-- Commands the interpreter can emit. -/
inductive Command where
  | startRecording (scene obj : List Char)
  | stopRecording
  | noop
deriving DecidableEq, Repr

/-- Pure command interpreter over an already-normalized transcript:
the stop pattern is tested first (the `if (stopMatch)` branch), then
the start pattern; the two captured groups are label-normalized. -/
def classify (txt : List Char) : Command :=
  match execRegex STOP_RECORDING_REGEX txt with
  | some _ => .stopRecording
  | none =>
    match execRegex START_RECORDING_REGEX txt with
    | some caps => .startRecording (normalizeLabel (caps.g1.getD [])) (normalizeLabel (caps.g2.getD []))
    | none => .noop

/-- The interpreter as invoked by the handler: normalize the finalized
transcript, then classify. -/
def interpretTranscript (raw : List Char) : Command :=
  classify (normalizeTranscript raw)

example : interpretTranscript "Dexter, start recording for scene lab for object knife!".toList
    = Command.startRecording "lab".toList "knife".toList := by decide

example : interpretTranscript "dexter stop recording".toList = Command.stopRecording := by decide

example : interpretTranscript "hello there".toList = Command.noop := by decide

/-! ## Session state and the transcription handler -/

/-- The `step` field of a recording setup. -/
inductive RecStep where
  | idle
  | waitingForScene
  | waitingForObject
  | ready
deriving DecidableEq, Repr

/-- The per-user `recordingSetup` map entry. -/
structure RecordingSetup where
  scene : Option (List Char)
  obj : Option (List Char)
  step : RecStep
deriving DecidableEq, Repr

/-- A captured photo as delivered by the camera capability. -/
structure PhotoData where
  requestId : List Char
  buffer : List Nat
  timestampMs : Nat
  mimeType : List Char
  filename : List Char
  size : Nat
deriving DecidableEq, Repr

/-- The in-memory cached photo (`StoredPhoto` in the source). -/
structure StoredPhoto where
  requestId : List Char
  buffer : List Nat
  timestampMs : Nat
  userId : List Char
  mimeType : List Char
  filename : List Char
  size : Nat
deriving DecidableEq, Repr

/-- The slice of the per-user server maps for one user: the streaming
flag, the next permitted capture time (absent once deleted), the
recording setup entry, and the cached last photo. -/
structure SessionState where
  isStreamingPhotos : Bool
  nextPhotoTime : Option Nat
  recordingSetup : Option RecordingSetup
  lastPhoto : Option StoredPhoto
deriving DecidableEq, Repr

/-- Externally visible effects of the transcription handler. -/
inductive SessionEffect where
  | speak (msg : List Char)
  | ensureSceneFolder (scene : List Char)
deriving DecidableEq, Repr

/-- The transcription event handler registered in `onSession`:
interim fragments are ignored; a finalized fragment is normalized and
dispatched on the stop regex first, then the start regex, with the
already-recording and not-recording guards of the source. -/
def handleTranscription (st : SessionState) (isFinal : Bool) (raw : List Char) :
    SessionState × List SessionEffect :=
  if isFinal then
    let txt := normalizeTranscript raw
    match execRegex STOP_RECORDING_REGEX txt with
    | some _ =>
      if !st.isStreamingPhotos then
        (st, [.speak "Not currently recording".toList])
      else
        (⟨false, none, st.recordingSetup, st.lastPhoto⟩, [.speak "Recording stopped".toList])
    | none =>
      match execRegex START_RECORDING_REGEX txt with
      | some caps =>
        if st.isStreamingPhotos then
          (st, [.speak "Recording already in progress".toList])
        else
          let sceneName := normalizeLabel (caps.g1.getD [])
          let objectName := normalizeLabel (caps.g2.getD [])
          (⟨true, st.nextPhotoTime, some ⟨some sceneName, some objectName, .ready⟩, st.lastPhoto⟩,
           [.ensureSceneFolder sceneName,
            .speak ("Recording started for ".toList ++ sceneName ++ " - ".toList ++ objectName)])
      | none => (st, [])
  else (st, [])

/-! ## Timed capture scheduler -/

/-- Outcome of one camera capture request: success carries the time at
which the awaited request completes. -/
inductive CaptureResult where
  | success (completesAt : Nat)
  | failure
deriving DecidableEq, Repr

/-- One tick of the `setInterval` loop for one user: when streaming
and `now` is past the next permitted time, the tick first writes
`now + 30000` as a fallback, issues the capture, and on success
overwrites the next permitted time with the completion time.  Returns
whether a capture request was issued, and the new `nextPhotoTime`. -/
def schedTick (streaming : Bool) (next : Option Nat) (now : Nat) (res : CaptureResult) :
    Bool × Option Nat :=
  if streaming && decide (now > next.getD 0) then
    match res with
    | .failure => (true, some (now + 30000))
    | .success c => (true, some c)
  else (false, next)

/-- Times at which the loop issues capture requests over a given list
of tick times, when every capture fails (the repeated-failure
scenario of the spec). -/
def failFireTimes (next : Option Nat) : List Nat → List Nat
  | [] => []
  | t :: ts =>
    match schedTick true next t .failure with
    | (true, next2) => t :: failFireTimes next2 ts
    | (false, next2) => failFireTimes next2 ts

/-! ## Photo ingestion pipeline -/

/-- A row of the `mentra_scenes` metadata table. -/
structure SceneRow where
  user_id : List Char
  request_id : List Char
  path : List Char
  mime_type : List Char
  size : Nat
  captured_at : Nat
  scene : List Char
  obj : List Char
deriving DecidableEq, Repr

/-- Externally visible storage effects of `cachePhoto`. -/
inductive CacheEffect where
  | upload (path : List Char) (contentType : List Char) (bytes : List Nat)
  | insertRow (row : SceneRow)
deriving DecidableEq, Repr

/-- JS falsiness of an optional string field (`!setup.scene`): absent
or the empty string. -/
def unsetLabel : Option (List Char) → Bool
  | none => true
  | some s => s.isEmpty

/-- `cachePhoto`: always refresh the in-memory last photo and its
timestamp, then abort (dropping the bytes) when the recording setup or
either label is missing; otherwise upload the bytes at the derived
path and, only when the upload succeeded, insert the metadata row.
`uploadFails` models the storage upload returning an error. -/
def cachePhoto (photo : PhotoData) (userId : List Char) (setup : Option RecordingSetup)
    (uploadFails : Bool) : (StoredPhoto × Nat) × List CacheEffect :=
  let cached : StoredPhoto :=
    ⟨photo.requestId, photo.buffer, photo.timestampMs, userId, photo.mimeType, photo.filename,
      photo.size⟩
  let mem := (cached, photo.timestampMs)
  match setup with
  | none => (mem, [])
  | some st =>
    if unsetLabel st.scene || unsetLabel st.obj then (mem, [])
    else
      let sc := st.scene.getD []
      let ob := st.obj.getD []
      let ext := if photo.mimeType = "image/jpeg".toList then "jpg".toList else "png".toList
      let objectPath := sc ++ "/".toList ++ ob ++ "/".toList ++ photo.requestId ++ ".".toList ++ ext
      let up := CacheEffect.upload objectPath photo.mimeType photo.buffer
      if uploadFails then (mem, [up])
      else
        (mem, [up, .insertRow ⟨userId, photo.requestId, objectPath, photo.mimeType, photo.size,
          photo.timestampMs, sc, ob⟩])

/-! ## Query service (webview routes) -/

/-- Data accesses a route can perform after the authentication
check. -/
inductive DataAccess where
  | queryLatest (userId : List Char)
  | queryById (userId requestId : List Char)
  | sign (path : List Char) (ttlSeconds : Nat)
  | download (path : List Char)
deriving DecidableEq, Repr

/-- Response of the `/api/latest-photo` route. -/
inductive LatestPhotoRes where
  | notAuthenticated
  | notFound
  | signError
  | ok (requestId : List Char) (timestamp : Nat) (signedUrl : List Char)
       (mimeType : List Char) (size : Nat)
deriving DecidableEq, Repr

/-- HTTP status of a `/api/latest-photo` response. -/
def LatestPhotoRes.status : LatestPhotoRes → Nat
  | .notAuthenticated => 401
  | .notFound => 404
  | .signError => 500
  | .ok _ _ _ _ _ => 200

/-- The row the `order by captured_at descending, limit 1` query
returns: a row with maximal `captured_at` among the given rows. -/
def maxByCapturedAt : List SceneRow → Option SceneRow
  | [] => none
  | r :: rs =>
    match maxByCapturedAt rs with
    | none => some r
    | some m => if m.captured_at > r.captured_at then some m else some r

/-- The `/api/latest-photo` handler: 401 before any data access when
the request carries no identity; otherwise query the newest row for
the user (404 when none), sign its path with the fixed 300-second TTL,
and return the descriptor. -/
def latestPhotoHandler (auth : Option (List Char)) (rows : List SceneRow)
    (signUrl : List Char → Nat → Option (List Char)) : LatestPhotoRes × List DataAccess :=
  match auth with
  | none => (.notAuthenticated, [])
  | some u =>
    match maxByCapturedAt (rows.filter fun r => r.user_id = u) with
    | none => (.notFound, [.queryLatest u])
    | some row =>
      match signUrl row.path 300 with
      | none => (.signError, [.queryLatest u, .sign row.path 300])
      | some url =>
        (.ok row.request_id row.captured_at url row.mime_type row.size,
         [.queryLatest u, .sign row.path 300])

/-- Response of the `/api/photo/:requestId` route. -/
inductive PhotoByIdRes where
  | notAuthenticated
  | dbError
  | notFound
  | downloadError
  | ok (bytes : List Nat) (contentType : List Char)
deriving DecidableEq, Repr

/-- HTTP status of a `/api/photo/:requestId` response. -/
def PhotoByIdRes.status : PhotoByIdRes → Nat
  | .notAuthenticated => 401
  | .dbError => 500
  | .notFound => 404
  | .downloadError => 500
  | .ok _ _ => 200

/-- Supabase `maybeSingle`: no row, one row, or an error when the
filter matched more than one row. -/
def maybeSingle : List SceneRow → Except Unit (Option SceneRow)
  | [] => .ok none
  | [r] => .ok (some r)
  | _ => .error ()

/-- The `/api/photo/:requestId` handler: 401 before any data access
when unauthenticated; otherwise look up the row by the exact
`(user_id, request_id)` pair, 404 when absent, else download the blob
at the recorded path and return it with the recorded content type. -/
def photoByIdHandler (auth : Option (List Char)) (rows : List SceneRow) (requestId : List Char)
    (downloadBlob : List Char → Option (List Nat)) : PhotoByIdRes × List DataAccess :=
  match auth with
  | none => (.notAuthenticated, [])
  | some u =>
    match maybeSingle (rows.filter fun r => r.user_id = u && r.request_id = requestId) with
    | .error _ => (.dbError, [.queryById u requestId])
    | .ok none => (.notFound, [.queryById u requestId])
    | .ok (some row) =>
      match downloadBlob row.path with
      | none => (.downloadError, [.queryById u requestId, .download row.path])
      | some bytes =>
        (.ok bytes row.mime_type, [.queryById u requestId, .download row.path])

/-! ## Start-recording grammar of the specification -/

/-- The start grammar as the specification states it:
`dexter ... start ... recording ... for ... scene S for ... object O`
with free text between the anchors.  This definition follows the
words of the spec (for comparison against the code), not the code. -/
def specStartGrammar (t S O : List Char) : Prop :=
  ∃ g1 g2 g3 g4 g5 : List Char,
    t = "dexter".toList ++ g1 ++ "start".toList ++ g2 ++ "recording".toList ++ g3 ++
      "for".toList ++ g4 ++ "scene ".toList ++ S ++ " for".toList ++ g5 ++ "object ".toList ++ O

/-! ## Scheduler lemmas -/

theorem failFireTimes_cons (next : Option Nat) (t : Nat) (ts : List Nat) :
    failFireTimes next (t :: ts) =
      if next.getD 0 < t then t :: failFireTimes (some (t + 30000)) ts
      else failFireTimes next ts := by
  by_cases h : next.getD 0 < t <;>
    simp [failFireTimes, schedTick, h]

theorem failFireTimes_mem_gt (ts : List Nat) :
    ∀ (next : Option Nat) (x : Nat), x ∈ failFireTimes next ts → next.getD 0 < x := by
  induction ts with
  | nil => intro next x hx; simp [failFireTimes] at hx
  | cons t ts ih =>
    intro next x hx
    rw [failFireTimes_cons] at hx
    by_cases h : next.getD 0 < t
    · rw [if_pos h] at hx
      rcases List.mem_cons.mp hx with rfl | hx
      · exact h
      · have := ih (some (t + 30000)) x hx
        simp only [Option.getD_some] at this
        omega
    · rw [if_neg h] at hx
      exact ih next x hx

theorem failFireTimes_pairwise (ts : List Nat) :
    ∀ next : Option Nat, (failFireTimes next ts).Pairwise fun a b => a + 30000 < b := by
  induction ts with
  | nil => intro next; simp [failFireTimes]
  | cons t ts ih =>
    intro next
    rw [failFireTimes_cons]
    by_cases h : next.getD 0 < t
    · rw [if_pos h]
      refine List.Pairwise.cons ?_ (ih _)
      intro b hb
      have := failFireTimes_mem_gt ts (some (t + 30000)) b hb
      simpa using this
    · rw [if_neg h]
      exact ih _

/-- Claim C2: while streaming with repeatedly failing captures, the
timed loop never issues two capture requests for the same user closer
together than the 30000 ms fallback interval, because every eligible
tick advances `nextPhotoTime` by the fallback before the capture; only
a successful capture resets `nextPhotoTime` to the completion time,
after which the very next tick is eligible again (back-to-back capture
on success). -/
theorem scheduler_fallback_throttle :
    (∀ (next : Option Nat) (ts : List Nat),
      (failFireTimes next ts).Pairwise fun a b => a + 30000 < b) ∧
    (∀ (next : Option Nat) (now c : Nat), now > next.getD 0 →
      schedTick true next now (.success c) = (true, some c)) ∧
    (∀ (c t : Nat) (r : CaptureResult), t > c → (schedTick true (some c) t r).1 = true) := by
  refine ⟨fun next ts => failFireTimes_pairwise ts next, ?_, ?_⟩
  · intro next now c h
    simp [schedTick, h]
  · intro c t r h
    cases r <;> simp [schedTick, h]

/-- Witness for C2 at concrete inputs: a success at time 40 resets the
next permitted time to the completion time 45, and the tick at time 46
is eligible again. -/
theorem scheduler_fallback_throttle_witness :
    schedTick true (some 10) 40 (.success 45) = (true, some 45) ∧
    (schedTick true (some 45) 46 .failure).1 = true :=
  ⟨scheduler_fallback_throttle.2.1 (some 10) 40 45 (by decide),
   scheduler_fallback_throttle.2.2 45 46 .failure (by decide)⟩

/-! ## Photo ingestion theorems -/

/-- Claim C3: when `cachePhoto` runs while the recording setup is
absent or has scene or object unset, it performs zero blob uploads and
zero metadata inserts; only the in-memory last photo is refreshed. -/
theorem cachePhoto_missing_setup (photo : PhotoData) (userId : List Char)
    (setup : Option RecordingSetup) (uploadFails : Bool)
    (h : setup = none ∨ ∃ st, setup = some st ∧ (st.scene = none ∨ st.obj = none)) :
    (cachePhoto photo userId setup uploadFails).2 = [] := by
  rcases h with rfl | ⟨st, rfl, h⟩
  · rfl
  · rcases h with h | h <;> simp [cachePhoto, h, unsetLabel]

/-- Witness for C3: a concrete photo with no recording setup produces
no storage effects. -/
theorem cachePhoto_missing_setup_witness :
    (cachePhoto ⟨"req1".toList, [1, 2, 3], 1000, "image/jpeg".toList, "p.jpg".toList, 3⟩
      "alice".toList none false).2 = [] :=
  cachePhoto_missing_setup _ _ none false (Or.inl rfl)

/-- Claim C4: with scene and object set, `cachePhoto` uploads the
bytes at exactly `scene/object/requestId.ext`, where ext is `jpg` iff
the mime type is `image/jpeg` and `png` otherwise, and every metadata
row it inserts records this same path. -/
theorem cachePhoto_deterministic_path (photo : PhotoData) (userId sc ob : List Char)
    (step : RecStep) (uploadFails : Bool) (hsc : sc ≠ []) (hob : ob ≠ []) :
    ((cachePhoto photo userId (some ⟨some sc, some ob, step⟩) uploadFails).2.head? =
      some (CacheEffect.upload
        (sc ++ "/".toList ++ ob ++ "/".toList ++ photo.requestId ++ ".".toList ++
          (if photo.mimeType = "image/jpeg".toList then "jpg".toList else "png".toList))
        photo.mimeType photo.buffer)) ∧
    (∀ row, CacheEffect.insertRow row ∈
        (cachePhoto photo userId (some ⟨some sc, some ob, step⟩) uploadFails).2 →
      row.path = sc ++ "/".toList ++ ob ++ "/".toList ++ photo.requestId ++ ".".toList ++
        (if photo.mimeType = "image/jpeg".toList then "jpg".toList else "png".toList)) := by
  refine ⟨?_, ?_⟩
  · cases uploadFails <;> simp [cachePhoto, unsetLabel, List.isEmpty_iff, hsc, hob]
  · intro row h
    cases uploadFails
    · simp [cachePhoto, unsetLabel, List.isEmpty_iff, hsc, hob] at h
      simp [h]
    · simp [cachePhoto, unsetLabel, List.isEmpty_iff, hsc, hob] at h

/-- Witness for C4: a concrete jpeg capture under scene `lab`, object
`knife` is uploaded at `lab/knife/req1.jpg` and the inserted row
records that path. -/
theorem cachePhoto_deterministic_path_witness :
    ((cachePhoto ⟨"req1".toList, [1, 2], 1000, "image/jpeg".toList, "p.jpg".toList, 2⟩
        "alice".toList (some ⟨some "lab".toList, some "knife".toList, .ready⟩) false).2.head? =
      some (CacheEffect.upload ("lab/knife/req1.jpg".toList) ("image/jpeg".toList) [1, 2])) ∧
    (∀ row, CacheEffect.insertRow row ∈
        (cachePhoto ⟨"req1".toList, [1, 2], 1000, "image/jpeg".toList, "p.jpg".toList, 2⟩
          "alice".toList (some ⟨some "lab".toList, some "knife".toList, .ready⟩) false).2 →
      row.path = "lab/knife/req1.jpg".toList) := by
  have h := cachePhoto_deterministic_path
    ⟨"req1".toList, [1, 2], 1000, "image/jpeg".toList, "p.jpg".toList, 2⟩
    "alice".toList "lab".toList "knife".toList .ready false (by decide) (by decide)
  exact ⟨by rw [h.1]; decide, fun row hr => by rw [h.2 row hr]; decide⟩

/-- Claim C9: when the blob upload fails, `cachePhoto` stops after the
single upload attempt: no metadata row is inserted and no retry
happens; a metadata row only ever appears in a run whose upload
succeeded, listed after the upload. -/
theorem cachePhoto_upload_gate (photo : PhotoData) (userId : List Char)
    (setup : Option RecordingSetup) :
    (∀ row, CacheEffect.insertRow row ∉ (cachePhoto photo userId setup true).2) ∧
    ((cachePhoto photo userId setup true).2.length ≤ 1) ∧
    (∀ (uploadFails : Bool) (row : SceneRow),
      CacheEffect.insertRow row ∈ (cachePhoto photo userId setup uploadFails).2 →
      uploadFails = false ∧
      ∃ path, (cachePhoto photo userId setup uploadFails).2 =
        [CacheEffect.upload path photo.mimeType photo.buffer, CacheEffect.insertRow row]) := by
  have key : ∀ f : Bool, (cachePhoto photo userId setup f).2 = [] ∨
      ∃ path row, (cachePhoto photo userId setup f).2 =
        CacheEffect.upload path photo.mimeType photo.buffer ::
          (if f then [] else [CacheEffect.insertRow row]) := by
    intro f
    rcases setup with _ | ⟨osc, oob, stp⟩
    · exact Or.inl rfl
    · rcases osc with _ | sc
      · exact Or.inl (by simp [cachePhoto, unsetLabel])
      · rcases oob with _ | ob
        · exact Or.inl (by simp [cachePhoto, unsetLabel])
        · by_cases hsc : sc.isEmpty
          · exact Or.inl (by simp [cachePhoto, unsetLabel, hsc])
          · by_cases hob : ob.isEmpty
            · exact Or.inl (by simp [cachePhoto, unsetLabel, hsc, hob])
            · refine Or.inr
                ⟨sc ++ "/".toList ++ ob ++ "/".toList ++ photo.requestId ++ ".".toList ++
                    (if photo.mimeType = "image/jpeg".toList then "jpg".toList else "png".toList),
                  ⟨userId, photo.requestId,
                    sc ++ "/".toList ++ ob ++ "/".toList ++ photo.requestId ++ ".".toList ++
                      (if photo.mimeType = "image/jpeg".toList then "jpg".toList
                       else "png".toList),
                    photo.mimeType, photo.size, photo.timestampMs, sc, ob⟩, ?_⟩
              cases f <;> simp [cachePhoto, unsetLabel, hsc, hob]
  refine ⟨?_, ?_, ?_⟩
  · intro row h
    rcases key true with hk | ⟨path, row', hk⟩ <;> rw [hk] at h <;> simp at h
  · rcases key true with hk | ⟨path, row', hk⟩ <;> rw [hk] <;> simp
  · intro f row h
    cases f
    · rcases key false with hk | ⟨path, row', hk⟩
      · rw [hk] at h
        simp at h
      · rw [hk] at h
        simp at h
        refine ⟨rfl, path, ?_⟩
        rw [hk]
        simp [h]
    · rcases key true with hk | ⟨path, row', hk⟩ <;> rw [hk] at h <;> simp at h

/-- Witness for C9: with a failing upload on a ready setup, the effect
list is the single upload attempt. -/
theorem cachePhoto_upload_gate_witness :
    (∀ row, CacheEffect.insertRow row ∉
      (cachePhoto ⟨"req1".toList, [1], 5, "image/png".toList, "p.png".toList, 1⟩
        "alice".toList (some ⟨some "lab".toList, some "knife".toList, .ready⟩) true).2) :=
  (cachePhoto_upload_gate ⟨"req1".toList, [1], 5, "image/png".toList, "p.png".toList, 1⟩
    "alice".toList (some ⟨some "lab".toList, some "knife".toList, .ready⟩)).1

/-! ## Query service lemmas and theorems -/

theorem maxByCapturedAt_eq_none (l : List SceneRow) : maxByCapturedAt l = none ↔ l = [] := by
  cases l with
  | nil => simp [maxByCapturedAt]
  | cons r rs =>
    simp only [maxByCapturedAt]
    constructor
    · intro h
      cases hm : maxByCapturedAt rs <;> rw [hm] at h <;> dsimp only at h
      · exact Option.noConfusion h
      · split at h <;> exact Option.noConfusion h
    · intro h
      exact List.noConfusion h

theorem maxByCapturedAt_spec (l : List SceneRow) (m : SceneRow) (hm : maxByCapturedAt l = some m) :
    m ∈ l ∧ ∀ r ∈ l, r.captured_at ≤ m.captured_at := by
  induction l generalizing m with
  | nil => simp [maxByCapturedAt] at hm
  | cons r rs ih =>
    simp only [maxByCapturedAt] at hm
    cases h : maxByCapturedAt rs with
    | none =>
      rw [h] at hm
      have hrs : rs = [] := (maxByCapturedAt_eq_none rs).mp h
      cases hm
      subst hrs
      simp
    | some m' =>
      rw [h] at hm
      dsimp only at hm
      obtain ⟨hmem, hall⟩ := ih m' h
      by_cases hgt : m'.captured_at > r.captured_at
      · rw [if_pos hgt] at hm
        cases hm
        refine ⟨List.mem_cons_of_mem _ hmem, ?_⟩
        intro x hx
        rcases List.mem_cons.mp hx with rfl | hx
        · exact Nat.le_of_lt hgt
        · exact hall x hx
      · rw [if_neg hgt] at hm
        cases hm
        refine ⟨List.mem_cons_self _ _, ?_⟩
        intro x hx
        rcases List.mem_cons.mp hx with rfl | hx
        · exact Nat.le_refl _
        · exact Nat.le_trans (hall x hx) (Nat.le_of_not_lt hgt)

/-- Claim C5: `latestPhoto` answers 404 when the user has no stored
rows; with at least one row it answers with the descriptor of a row
with maximal `captured_at` among the rows of the caller, carrying the
requestId, timestamp, signed URL minted with the fixed 300-second TTL,
mime type and size of that row. -/
theorem latestPhoto_returns_newest (u : List Char) (rows : List SceneRow)
    (signUrl : List Char → Nat → Option (List Char))
    (hsign : ∀ p ttl, (signUrl p ttl).isSome = true) :
    ((rows.filter fun r => r.user_id = u) = [] →
      latestPhotoHandler (some u) rows signUrl = (.notFound, [.queryLatest u]) ∧
      (latestPhotoHandler (some u) rows signUrl).1.status = 404) ∧
    ((rows.filter fun r => r.user_id = u) ≠ [] →
      ∃ row url, row ∈ rows.filter (fun r => r.user_id = u) ∧
        (∀ r ∈ rows.filter (fun r => r.user_id = u), r.captured_at ≤ row.captured_at) ∧
        signUrl row.path 300 = some url ∧
        latestPhotoHandler (some u) rows signUrl =
          (.ok row.request_id row.captured_at url row.mime_type row.size,
           [.queryLatest u, .sign row.path 300])) := by
  constructor
  · intro hempty
    have hnone : maxByCapturedAt (rows.filter fun r => r.user_id = u) = none :=
      (maxByCapturedAt_eq_none _).mpr hempty
    constructor
    · simp [latestPhotoHandler, hnone]
    · simp [latestPhotoHandler, hnone, LatestPhotoRes.status]
  · intro hne
    cases hmax : maxByCapturedAt (rows.filter fun r => r.user_id = u) with
    | none => exact absurd ((maxByCapturedAt_eq_none _).mp hmax) hne
    | some row =>
      obtain ⟨hmem, hall⟩ := maxByCapturedAt_spec _ _ hmax
      obtain ⟨url, hurl⟩ := Option.isSome_iff_exists.mp (hsign row.path 300)
      exact ⟨row, url, hmem, hall, hurl, by simp [latestPhotoHandler, hmax, hurl]⟩

/-- Witness for C5 at a concrete table: for user alice with two rows,
the handler returns the descriptor of a row of maximal capture time
with a 300-second signed URL. -/
theorem latestPhoto_returns_newest_witness :
    ∃ (row : SceneRow) (url : List Char),
      row ∈ ([⟨"alice".toList, "r1".toList, "lab/knife/r1.jpg".toList, "image/jpeg".toList, 3, 10,
                "lab".toList, "knife".toList⟩,
              ⟨"alice".toList, "r2".toList, "lab/knife/r2.jpg".toList, "image/jpeg".toList, 4, 20,
                "lab".toList, "knife".toList⟩] :
          List SceneRow).filter (fun r => r.user_id = "alice".toList) ∧
      (∀ r ∈ ([⟨"alice".toList, "r1".toList, "lab/knife/r1.jpg".toList, "image/jpeg".toList, 3, 10,
                "lab".toList, "knife".toList⟩,
              ⟨"alice".toList, "r2".toList, "lab/knife/r2.jpg".toList, "image/jpeg".toList, 4, 20,
                "lab".toList, "knife".toList⟩] :
          List SceneRow).filter (fun r => r.user_id = "alice".toList),
        r.captured_at ≤ row.captured_at) ∧
      (fun (p : List Char) (_ : Nat) => some ('u' :: p)) row.path 300 = some url ∧
      latestPhotoHandler (some "alice".toList)
          [⟨"alice".toList, "r1".toList, "lab/knife/r1.jpg".toList, "image/jpeg".toList, 3, 10,
            "lab".toList, "knife".toList⟩,
           ⟨"alice".toList, "r2".toList, "lab/knife/r2.jpg".toList, "image/jpeg".toList, 4, 20,
            "lab".toList, "knife".toList⟩]
          (fun p _ => some ('u' :: p)) =
        (.ok row.request_id row.captured_at url row.mime_type row.size,
         [.queryLatest "alice".toList, .sign row.path 300]) :=
  (latestPhoto_returns_newest "alice".toList
    [⟨"alice".toList, "r1".toList, "lab/knife/r1.jpg".toList, "image/jpeg".toList, 3, 10,
      "lab".toList, "knife".toList⟩,
     ⟨"alice".toList, "r2".toList, "lab/knife/r2.jpg".toList, "image/jpeg".toList, 4, 20,
      "lab".toList, "knife".toList⟩]
    (fun p _ => some ('u' :: p)) (fun _ _ => rfl)).2 (by decide)

/-- Claim C6: `photoById` called by user A for a requestId stored only
under other users answers 404, and more generally its whole response
is a function of the rows owned by the caller alone (the lookup
filters on the exact pair (userId, requestId)). -/
theorem photoById_owner_isolation :
    (∀ (rows : List SceneRow) (u rid : List Char) (dl : List Char → Option (List Nat)),
      (∀ r ∈ rows, r.request_id = rid → r.user_id ≠ u) →
      photoByIdHandler (some u) rows rid dl = (.notFound, [.queryById u rid]) ∧
      (photoByIdHandler (some u) rows rid dl).1.status = 404) ∧
    (∀ (rows : List SceneRow) (u rid : List Char) (dl : List Char → Option (List Nat)),
      photoByIdHandler (some u) rows rid dl =
        photoByIdHandler (some u) (rows.filter fun r => r.user_id = u) rid dl) := by
  constructor
  · intro rows u rid dl hno
    have hempty : (rows.filter fun r => r.user_id = u && r.request_id = rid) = [] := by
      rw [List.filter_eq_nil_iff]
      intro r hr
      simp only [Bool.and_eq_true, decide_eq_true_eq, not_and]
      intro hu hrid
      exact hno r hr hrid hu
    constructor
    · simp [photoByIdHandler, hempty, maybeSingle]
    · simp [photoByIdHandler, hempty, maybeSingle, PhotoByIdRes.status]
  · intro rows u rid dl
    have hfilter : ((rows.filter fun r => r.user_id = u).filter
        fun r => r.user_id = u && r.request_id = rid) =
        rows.filter fun r => r.user_id = u && r.request_id = rid := by
      induction rows with
      | nil => rfl
      | cons r rs ih =>
        by_cases hu : r.user_id = u
        · by_cases hrid : r.request_id = rid <;>
            simp [List.filter_cons, hu, hrid, ih]
        · simp [List.filter_cons, hu, ih]
    simp [photoByIdHandler, hfilter]

/-- Witness for C6: alice requesting the requestId r9 stored under bob gets
404, and the handler result is unchanged when the rows of bob are
removed from the table. -/
theorem photoById_owner_isolation_witness :
    photoByIdHandler (some "alice".toList)
        [⟨"bob".toList, "r9".toList, "lab/knife/r9.jpg".toList, "image/jpeg".toList, 3, 10,
          "lab".toList, "knife".toList⟩]
        "r9".toList (fun _ => some [7]) =
      (.notFound, [.queryById "alice".toList "r9".toList]) ∧
    photoByIdHandler (some "alice".toList)
        [⟨"bob".toList, "r9".toList, "lab/knife/r9.jpg".toList, "image/jpeg".toList, 3, 10,
          "lab".toList, "knife".toList⟩]
        "r9".toList (fun _ => some [7]) =
      photoByIdHandler (some "alice".toList)
        (([⟨"bob".toList, "r9".toList, "lab/knife/r9.jpg".toList, "image/jpeg".toList, 3, 10,
            "lab".toList, "knife".toList⟩] : List SceneRow).filter
          fun r => r.user_id = "alice".toList)
        "r9".toList (fun _ => some [7]) :=
  ⟨(photoById_owner_isolation.1
      [⟨"bob".toList, "r9".toList, "lab/knife/r9.jpg".toList, "image/jpeg".toList, 3, 10,
        "lab".toList, "knife".toList⟩]
      "alice".toList "r9".toList (fun _ => some [7]) (by decide)).1,
   photoById_owner_isolation.2
      [⟨"bob".toList, "r9".toList, "lab/knife/r9.jpg".toList, "image/jpeg".toList, 3, 10,
        "lab".toList, "knife".toList⟩]
      "alice".toList "r9".toList (fun _ => some [7])⟩

/-- Claim C7: a request to either photo route with no resolved
identity is answered 401 with an empty data-access trace: the
authentication check short-circuits before any metadata-table query or
blob-storage access. -/
theorem unauthenticated_short_circuit :
    ∀ (rows : List SceneRow) (rid : List Char) (signUrl : List Char → Nat → Option (List Char))
      (dl : List Char → Option (List Nat)),
      latestPhotoHandler none rows signUrl = (.notAuthenticated, []) ∧
      (latestPhotoHandler none rows signUrl).1.status = 401 ∧
      photoByIdHandler none rows rid dl = (.notAuthenticated, []) ∧
      (photoByIdHandler none rows rid dl).1.status = 401 := by
  intro rows rid signUrl dl
  exact ⟨rfl, rfl, rfl, rfl⟩

/-! ## Transcription handler theorems -/

/-- Claim C8: a finalized transcript interpreted as a StartRecording
command while the user is already streaming leaves the whole session
state (streaming flag, next capture time, recording setup, cached last
photo) unchanged and provisions no scene namespace; the handler only
speaks the already-in-progress notice. -/
theorem startRecording_while_streaming_unchanged (st : SessionState) (raw : List Char)
    (hstream : st.isStreamingPhotos = true)
    (hstart : (execRegex START_RECORDING_REGEX (normalizeTranscript raw)).isSome = true)
    (hstop : execRegex STOP_RECORDING_REGEX (normalizeTranscript raw) = none) :
    handleTranscription st true raw =
      (st, [.speak "Recording already in progress".toList]) ∧
    (handleTranscription st true raw).1 = st ∧
    ∀ sc, SessionEffect.ensureSceneFolder sc ∉ (handleTranscription st true raw).2 := by
  obtain ⟨caps, hc⟩ := Option.isSome_iff_exists.mp hstart
  have h : handleTranscription st true raw =
      (st, [.speak "Recording already in progress".toList]) := by
    simp [handleTranscription, hstop, hc, hstream]
  refine ⟨h, by rw [h], ?_⟩
  intro sc
  rw [h]
  simp

/-- Witness for C8: with streaming already on, the concrete start
command for scene desk, object hammer leaves the state untouched. -/
theorem startRecording_while_streaming_unchanged_witness :
    handleTranscription
        ⟨true, some 1234, some ⟨some "lab".toList, some "knife".toList, .ready⟩, none⟩ true
        "dexter start recording for scene desk for object hammer".toList =
      (⟨true, some 1234, some ⟨some "lab".toList, some "knife".toList, .ready⟩, none⟩,
       [.speak "Recording already in progress".toList]) :=
  (startRecording_while_streaming_unchanged
    ⟨true, some 1234, some ⟨some "lab".toList, some "knife".toList, .ready⟩, none⟩
    "dexter start recording for scene desk for object hammer".toList
    rfl (by decide) (by decide)).1

/-- Claim C10: a transcript matching both the stop and the start
pattern is classified as StopRecording and never as StartRecording:
the stop pattern is tested first and its branch excludes the start
branch. -/
theorem stop_takes_precedence (txt : List Char)
    (hstop : (execRegex STOP_RECORDING_REGEX txt).isSome = true)
    (_hstart : (execRegex START_RECORDING_REGEX txt).isSome = true) :
    classify txt = Command.stopRecording ∧
    ∀ s o, classify txt ≠ Command.startRecording s o := by
  obtain ⟨caps, hc⟩ := Option.isSome_iff_exists.mp hstop
  have h : classify txt = Command.stopRecording := by
    unfold classify
    rw [hc]
  exact ⟨h, fun s o hcontra => by rw [h] at hcontra; exact Command.noConfusion hcontra⟩

/-- Witness for C10: a concrete transcript matching both grammars is
classified as StopRecording. -/
theorem stop_takes_precedence_witness :
    classify "dexter stop recording dexter start recording for scene lab for object knife".toList
      = Command.stopRecording :=
  (stop_takes_precedence
    "dexter stop recording dexter start recording for scene lab for object knife".toList
    (by decide) (by decide)).1

/-! ## Machinery for the start-grammar analysis

Lemmas tying anchor-word occurrences inside a transcript to the greedy
choices of the backtracking matcher, and the whitespace facts the two
quantified groups of the start pattern depend on. -/

theorem prefix_drop_ge (w l : List Char) (j : Nat) (hw : w ≠ [])
    (h : w.isPrefixOf (l.drop j) = true) : j + w.length ≤ l.length := by
  have hp := List.isPrefixOf_iff_prefix.mp h
  have hlen := hp.length_le
  rw [List.length_drop] at hlen
  rcases Nat.lt_or_ge l.length j with hj | hj
  · rw [List.drop_eq_nil_of_le (Nat.le_of_lt hj)] at hp
    exact absurd (List.prefix_nil.mp hp) hw
  · omega

/-! ## Backtracking-resolution lemmas -/

theorem firstSome_eq_of (f : Nat → Option Caps) (n k : Nat) (v : Caps) (hk : k ≤ n)
    (hfk : f k = some v) (hnone : ∀ j, k < j → j ≤ n → f j = none) :
    firstSome f n = some v := by
  induction n with
  | zero =>
    have hk0 : k = 0 := Nat.le_zero.mp hk
    subst hk0
    simpa [firstSome] using hfk
  | succ n ih =>
    rw [firstSome]
    by_cases hkn : k = n + 1
    · subst hkn
      rw [hfk]
      rfl
    · have hk2 : k ≤ n := Nat.lt_succ_iff.mp (Nat.lt_of_le_of_ne hk hkn)
      rw [hnone (n + 1) (Nat.lt_succ_of_le hk2) (Nat.le_refl _)]
      exact ih hk2 fun j hj hj2 => hnone j hj (Nat.le_succ_of_le hj2)

theorem firstSome_none (f : Nat → Option Caps) (n : Nat) (h : ∀ j, j ≤ n → f j = none) :
    firstSome f n = none := by
  induction n with
  | zero => simpa [firstSome] using h 0 (Nat.le_refl _)
  | succ n ih =>
    rw [firstSome, h (n + 1) (Nat.le_refl _)]
    exact ih fun j hj => h j (Nat.le_succ_of_le hj)

theorem firstSomePos_eq_of (f : Nat → Option Caps) (n k : Nat) (v : Caps) (hk1 : 1 ≤ k)
    (hk : k ≤ n) (hfk : f k = some v) (hnone : ∀ j, k < j → j ≤ n → f j = none) :
    firstSomePos f n = some v := by
  induction n with
  | zero => omega
  | succ n ih =>
    rw [firstSomePos]
    by_cases hkn : k = n + 1
    · subst hkn
      rw [hfk]
      rfl
    · have hk2 : k ≤ n := Nat.lt_succ_iff.mp (Nat.lt_of_le_of_ne hk hkn)
      rw [hnone (n + 1) (Nat.lt_succ_of_le hk2) (Nat.le_refl _)]
      exact ih hk2 fun j hj hj2 => hnone j hj (Nat.le_succ_of_le hj2)

theorem runPat_nil (s : List Char) (caps : Caps) : runPat [] s caps = some caps := rfl

theorem runPat_lit (w : List Char) (ps : List RItem) (s : List Char) (caps : Caps) :
    runPat (.lit w :: ps) s caps =
      if w.isPrefixOf s then runPat ps (s.drop w.length) caps else none := rfl

theorem runPat_star (p : Char → Bool) (ps : List RItem) (s : List Char) (caps : Caps) :
    runPat (.star p :: ps) s caps =
      firstSome (fun j => runPat ps (s.drop j) caps) (s.takeWhile p).length := rfl

theorem runPat_plus (p : Char → Bool) (ps : List RItem) (s : List Char) (caps : Caps) :
    runPat (.plus p :: ps) s caps =
      firstSomePos (fun j => runPat ps (s.drop j) caps) (s.takeWhile p).length := rfl

theorem runPat_cap (idx : Nat) (p : Char → Bool) (ps : List RItem) (s : List Char) (caps : Caps) :
    runPat (.cap idx p :: ps) s caps =
      firstSomePos (fun j => runPat ps (s.drop j) (setCap caps idx (s.take j)))
        (s.takeWhile p).length := rfl

theorem runPat_lit_consume (w t : List Char) (ps : List RItem) (caps : Caps) :
    runPat (.lit w :: ps) (w ++ t) caps = runPat ps t caps := by
  rw [runPat_lit,
    if_pos ( List.isPrefixOf_iff_prefix.mpr (List.prefix_append w t)), List.drop_left]

theorem runPat_lit_fails (w s : List Char) (ps : List RItem) (caps : Caps)
    (h : w.isPrefixOf s = false) : runPat (.lit w :: ps) s caps = none := by
  rw [runPat_lit, if_neg]
  rw [h]
  exact Bool.false_ne_true

theorem star_choose (p : Char → Bool) (ps : List RItem) (s : List Char) (caps v : Caps) (k : Nat)
    (hk : k ≤ (s.takeWhile p).length) (hsucc : runPat ps (s.drop k) caps = some v)
    (hfail : ∀ j, k < j → j ≤ (s.takeWhile p).length → runPat ps (s.drop j) caps = none) :
    runPat (.star p :: ps) s caps = some v := by
  rw [runPat_star]
  exact firstSome_eq_of _ _ k v hk hsucc hfail

theorem star_none (p : Char → Bool) (ps : List RItem) (s : List Char) (caps : Caps)
    (h : ∀ j, j ≤ (s.takeWhile p).length → runPat ps (s.drop j) caps = none) :
    runPat (.star p :: ps) s caps = none := by
  rw [runPat_star]
  exact firstSome_none _ _ h

theorem plus_choose (p : Char → Bool) (ps : List RItem) (s : List Char) (caps v : Caps) (k : Nat)
    (hk1 : 1 ≤ k) (hk : k ≤ (s.takeWhile p).length)
    (hsucc : runPat ps (s.drop k) caps = some v)
    (hfail : ∀ j, k < j → j ≤ (s.takeWhile p).length → runPat ps (s.drop j) caps = none) :
    runPat (.plus p :: ps) s caps = some v := by
  rw [runPat_plus]
  exact firstSomePos_eq_of _ _ k v hk1 hk hsucc hfail

theorem cap_choose (idx : Nat) (p : Char → Bool) (ps : List RItem) (s : List Char)
    (caps v : Caps) (k : Nat) (hk1 : 1 ≤ k) (hk : k ≤ (s.takeWhile p).length)
    (hsucc : runPat ps (s.drop k) (setCap caps idx (s.take k)) = some v)
    (hfail : ∀ j, k < j → j ≤ (s.takeWhile p).length →
      runPat ps (s.drop j) (setCap caps idx (s.take j)) = none) :
    runPat (.cap idx p :: ps) s caps = some v := by
  rw [runPat_cap]
  exact firstSomePos_eq_of _ _ k v hk1 hk hsucc hfail

theorem execRegex_of_head (pat : List RItem) (s : List Char) (v : Caps)
    (h : runPat pat s ⟨none, none⟩ = some v) : execRegex pat s = some v := by
  cases s with
  | nil => simpa [execRegex] using h
  | cons c t =>
    rw [execRegex, h]
    rfl

theorem execRegex_none_of (pat : List RItem) (s : List Char)
    (h : ∀ j, runPat pat (s.drop j) ⟨none, none⟩ = none) : execRegex pat s = none := by
  induction s with
  | nil => simpa [execRegex] using h 0
  | cons c t ih =>
    rw [execRegex]
    have h0 := h 0
    rw [List.drop_zero] at h0
    rw [h0]
    have ht : execRegex pat t = none := ih fun j => h (j + 1)
    simp [ht]

theorem bool_eq_false {b : Bool} (h : ¬b = true) : b = false := by
  cases b
  · rfl
  · exact absurd rfl h

theorem takeWhile_append_all (p : Char → Bool) (l t : List Char) (h : ∀ c ∈ l, p c = true) :
    (l ++ t).takeWhile p = l ++ t.takeWhile p := by
  induction l with
  | nil => simp
  | cons a u ih =>
    rw [List.cons_append, List.takeWhile_cons, if_pos (h a (List.mem_cons_self a u)),
      ih fun c hc => h c (List.mem_cons_of_mem a hc), List.cons_append]

theorem trimWs_append_space (l : List Char) : trimWs (l ++ [' ']) = trimWs l := by
  unfold trimWs
  rw [List.dropWhile_append]
  by_cases h : (l.dropWhile jsWs).isEmpty
  · rw [if_pos h]
    rw [show ([' '].dropWhile jsWs) = [] from rfl]
    rw [List.isEmpty_iff.mp h]
  · rw [if_neg h]
    rw [List.reverse_append]
    rw [show ([' '] : List Char).reverse = [' '] from rfl]
    rw [show ([' '] : List Char) ++ (l.dropWhile jsWs).reverse =
      ' ' :: (l.dropWhile jsWs).reverse from rfl]
    rw [List.dropWhile_cons]
    rw [if_pos (by decide)]

theorem normalizeLabel_append_space (l : List Char) :
    normalizeLabel (l ++ [' ']) = normalizeLabel l := by
  unfold normalizeLabel
  rw [trimWs_append_space]

/-- Claim C1 counterexample: the transcript `dexter start recording
for scene office for object knife` is an instance of the start
grammar of the spec with S = office and O = knife, yet the interpreter
emits no command at all, because the scene capture group `[^for]+`
is a character class: it can never match a label containing the
letters f, o or r, and `office` begins with `o`. -/
theorem start_grammar_free_chars_counterexample :
    specStartGrammar "dexter start recording for scene office for object knife".toList
      "office".toList "knife".toList ∧
    interpretTranscript "dexter start recording for scene office for object knife".toList =
      Command.noop ∧
    interpretTranscript "dexter start recording for scene office for object knife".toList ≠
      Command.startRecording (normalizeLabel "office".toList)
        (normalizeLabel "knife".toList) := by
  refine ⟨⟨" ".toList, " ".toList, " ".toList, " ".toList, " ".toList, by decide⟩, ?_, ?_⟩
  · decide
  · decide

theorem dropWhile_self (p : Char → Bool) (l : List Char) :
    (l.dropWhile p).dropWhile p = l.dropWhile p := by
  induction l with
  | nil => rfl
  | cons a u ih =>
    rw [List.dropWhile_cons]
    by_cases h : p a = true
    · rw [if_pos h]
      exact ih
    · rw [if_neg h, List.dropWhile_cons, if_neg h]

theorem trimWs_dropWhile (l : List Char) : trimWs (l.dropWhile jsWs) = trimWs l := by
  unfold trimWs
  rw [dropWhile_self]

theorem normalizeLabel_dropWhile (l : List Char) :
    normalizeLabel (l.dropWhile jsWs) = normalizeLabel l := by
  unfold normalizeLabel
  rw [trimWs_dropWhile]

theorem normalizeLabel_dropWhile_space (l : List Char) :
    normalizeLabel (l.dropWhile jsWs ++ [' ']) = normalizeLabel l := by
  rw [normalizeLabel_append_space, normalizeLabel_dropWhile]

theorem take_takeWhile_length (p : Char → Bool) (l : List Char) :
    l.take (l.takeWhile p).length = l.takeWhile p := by
  induction l with
  | nil => rfl
  | cons a u ih =>
    rw [List.takeWhile_cons]
    by_cases h : p a = true
    · rw [if_pos h, List.length_cons, List.take_succ_cons, ih]
    · rw [if_neg h, List.length_nil, List.take_zero]

theorem drop_takeWhile_length (p : Char → Bool) (l : List Char) :
    l.drop (l.takeWhile p).length = l.dropWhile p := by
  induction l with
  | nil => rfl
  | cons a u ih =>
    rw [List.takeWhile_cons, List.dropWhile_cons]
    by_cases h : p a = true
    · rw [if_pos h, if_pos h, List.length_cons, List.drop_succ_cons, ih]
    · rw [if_neg h, if_neg h, List.length_nil, List.drop_zero]

theorem takeWhile_append_stop (p : Char → Bool) (l r : List Char) (h : l.dropWhile p ≠ []) :
    (l ++ r).takeWhile p = l.takeWhile p := by
  induction l with
  | nil => exact absurd rfl h
  | cons a u ih =>
    rw [List.cons_append, List.takeWhile_cons, List.takeWhile_cons]
    by_cases hp : p a = true
    · rw [if_pos hp, if_pos hp]
      rw [List.dropWhile_cons, if_pos hp] at h
      rw [ih h]
    · rw [if_neg hp, if_neg hp]

theorem dropWhile_append_rest (p : Char → Bool) (l r : List Char) (h : l.dropWhile p ≠ []) :
    (l ++ r).dropWhile p = l.dropWhile p ++ r := by
  rw [List.dropWhile_append, if_neg]
  rw [List.isEmpty_iff]
  exact h

theorem dropWhile_eq_nil_of_all (p : Char → Bool) (l : List Char)
    (h : ∀ c ∈ l, p c = true) : l.dropWhile p = [] := by
  induction l with
  | nil => rfl
  | cons a u ih =>
    rw [List.dropWhile_cons, if_pos (h a (List.mem_cons_self _ _))]
    exact ih fun c hc => h c (List.mem_cons_of_mem _ hc)

theorem dropWhile_append_all (p : Char → Bool) (l r : List Char)
    (h : ∀ c ∈ l, p c = true) : (l ++ r).dropWhile p = r.dropWhile p := by
  rw [List.dropWhile_append, if_pos]
  rw [List.isEmpty_iff]
  exact dropWhile_eq_nil_of_all p l h

theorem mem_of_mem_dropWhile (p : Char → Bool) (l : List Char) (a : Char)
    (h : a ∈ l.dropWhile p) : a ∈ l :=
  (List.dropWhile_sublist p).subset h

theorem mem_of_drop_eq {t s : List Char} {d : Nat} (hd : t.drop d = s) :
    ∀ c ∈ s, c ∈ t := by
  intro c hc
  rw [← hd] at hc
  exact (List.drop_sublist d t).subset hc

/-- Turn a bounded occurrence scan (decidable on a concrete
transcript) into the unbounded occurrence hypothesis the amended C1
theorem takes. -/
theorem prefix_positions_of_bounded (w l : List Char) (P : Nat → Prop) (hw : w ≠ [])
    (hbound : ∀ i, i < l.length → w.isPrefixOf (l.drop i) = true → P i) :
    ∀ i, w.isPrefixOf (l.drop i) = true → P i := by
  intro i h
  have hge := prefix_drop_ge w l i hw h
  have hwpos : 0 < w.length := List.length_pos.mpr hw
  exact hbound i (by omega) h

/-- Bounded form of a nowhere-occurring word, for concrete witnesses. -/
theorem prefix_nowhere_of_bounded (w l : List Char) (hw : w ≠ [])
    (hbound : ∀ i, i < l.length → w.isPrefixOf (l.drop i) = false) :
    ∀ i, w.isPrefixOf (l.drop i) = false := by
  intro i
  by_cases h : w.isPrefixOf (l.drop i) = true
  · have hge := prefix_drop_ge w l i hw h
    have hwpos : 0 < w.length := List.length_pos.mpr hw
    exact hbound i (by omega)
  · exact bool_eq_false h

/-- The stop pattern cannot match any transcript in which the word
`stop` never occurs, from any start position. -/
theorem stopRegex_no_stop (t : List Char)
    (hStop : ∀ i, ("stop".toList).isPrefixOf (t.drop i) = false) :
    execRegex STOP_RECORDING_REGEX t = none := by
  apply execRegex_none_of
  intro j
  unfold STOP_RECORDING_REGEX
  by_cases hpre : ("dexter".toList).isPrefixOf (t.drop j) = true
  · rw [runPat_lit, if_pos]
    · apply star_none
      intro i him
      apply runPat_lit_fails
      rw [List.drop_drop, List.drop_drop]
      exact hStop _
    · rw [hpre]
  · exact runPat_lit_fails _ _ _ _ (bool_eq_false hpre)

/-- Resolve a greedy dot-star followed by an anchor literal at offset
`k` of the current suffix `s = t.drop d`, given that the literal fails
as a prefix at every larger offset. -/
theorem star_lit_by_fail (w : List Char) (ps : List RItem) (s t : List Char) (d k : Nat)
    (caps v : Caps) (hd : t.drop d = s) (hall : s.takeWhile jsDot = s) (hk : k ≤ s.length)
    (hfail : ∀ j, k < j → j ≤ s.length → w.isPrefixOf (t.drop (d + j)) = false)
    (hsucc : runPat (.lit w :: ps) (s.drop k) caps = some v) :
    runPat (.star jsDot :: .lit w :: ps) s caps = some v := by
  apply star_choose _ _ _ _ _ k ?_ hsucc ?_
  · rw [hall]
    exact hk
  · intro j hj1 hjm
    rw [hall] at hjm
    apply runPat_lit_fails
    rw [← hd, List.drop_drop]
    exact hfail j hj1 hjm

/-- The full start pattern on a grammar-shaped transcript with free
text between the anchors: provided the anchor words start, recording,
for, scene and object occur only at their grammar positions, every
character is matchable by the dot, the scene label contains none of
the letters f, o, r, and each label has a non-whitespace character,
the match starts at position 0, group 1 captures the scene label
(leading whitespace absorbed by the pattern, one trailing space
included) and group 2 captures the object label (leading whitespace
absorbed). -/
theorem startRegex_free_success (t g1 g2 g3 g4 g5 S O : List Char)
    (hshape : t = "dexter".toList ++ g1 ++ "start".toList ++ g2 ++ "recording".toList ++ g3 ++
      "for".toList ++ g4 ++ "scene ".toList ++ S ++ " for".toList ++ g5 ++ "object ".toList ++ O)
    (hdot : ∀ c ∈ t, jsDot c = true)
    (hSfor : ∀ c ∈ S, nonForChar c = true)
    (hSne : S.dropWhile jsWs ≠ []) (hOne : O.dropWhile jsWs ≠ [])
    (hStart : ∀ i, ("start".toList).isPrefixOf (t.drop i) = true → i = 6 + g1.length)
    (hRec : ∀ i, ("recording".toList).isPrefixOf (t.drop i) = true → i = 11 + g1.length + g2.length)
    (hFor : ∀ i, ("for".toList).isPrefixOf (t.drop i) = true →
      i = 20 + g1.length + g2.length + g3.length ∨ i = 30 + g1.length + g2.length + g3.length + g4.length + S.length)
    (hScene : ∀ i, ("scene".toList).isPrefixOf (t.drop i) = true → i = 23 + g1.length + g2.length + g3.length + g4.length)
    (hObj : ∀ i, ("object".toList).isPrefixOf (t.drop i) = true → i = 33 + g1.length + g2.length + g3.length + g4.length + S.length + g5.length) :
    execRegex START_RECORDING_REGEX t =
      some ⟨some (S.dropWhile jsWs ++ [' ']), some (O.dropWhile jsWs)⟩ := by
  have hshape2 : t = "dexter".toList ++ (g1 ++ ("start".toList ++ (g2 ++ ("recording".toList ++ (g3 ++ ("for".toList ++ (g4 ++ ("scene".toList ++ ([' '] ++ (S ++ ([' '] ++ ("for".toList ++ (g5 ++ ("object".toList ++ ([' '] ++ O))))))))))))))) := by
    rw [hshape]
    rw [show "scene ".toList = "scene".toList ++ [' '] from rfl,
      show " for".toList = [' '] ++ "for".toList from rfl,
      show "object ".toList = "object".toList ++ [' '] from rfl]
    simp [List.append_assoc]
  have hl6 : ("dexter".toList).length = 6 := by decide
  have hl5 : ("start".toList).length = 5 := by decide
  have hl9 : ("recording".toList).length = 9 := by decide
  have hl3 : ("for".toList).length = 3 := by decide
  have hlsc : ("scene".toList).length = 5 := by decide
  have hlob : ("object".toList).length = 6 := by decide
  have hd1 : t.drop 6 = (g1 ++ ("start".toList ++ (g2 ++ ("recording".toList ++ (g3 ++ ("for".toList ++ (g4 ++ ("scene".toList ++ ([' '] ++ (S ++ ([' '] ++ ("for".toList ++ (g5 ++ ("object".toList ++ ([' '] ++ O))))))))))))))) := by
    rw [hshape2]
    rw [show (6 : Nat) = ("dexter".toList).length from rfl]
    exact List.drop_left _ _
  have hsplit2 : t = ("dexter".toList ++ g1 ++ "start".toList) ++ (g2 ++ ("recording".toList ++ (g3 ++ ("for".toList ++ (g4 ++ ("scene".toList ++ ([' '] ++ (S ++ ([' '] ++ ("for".toList ++ (g5 ++ ("object".toList ++ ([' '] ++ O))))))))))))) := by
    rw [hshape2]
    simp [List.append_assoc]
  have hplen2 : (("dexter".toList ++ g1 ++ "start".toList) : List Char).length = 11 + g1.length := by
    simp only [List.length_append, List.length_cons, List.length_nil, hl6, hl5, hl9, hl3,
      hlsc, hlob]
    omega
  have hd2 : t.drop (11 + g1.length) = (g2 ++ ("recording".toList ++ (g3 ++ ("for".toList ++ (g4 ++ ("scene".toList ++ ([' '] ++ (S ++ ([' '] ++ ("for".toList ++ (g5 ++ ("object".toList ++ ([' '] ++ O))))))))))))) := by
    rw [hsplit2, ← hplen2]
    exact List.drop_left _ _
  have hsplit3 : t = ("dexter".toList ++ g1 ++ "start".toList ++ g2 ++ "recording".toList) ++ (g3 ++ ("for".toList ++ (g4 ++ ("scene".toList ++ ([' '] ++ (S ++ ([' '] ++ ("for".toList ++ (g5 ++ ("object".toList ++ ([' '] ++ O))))))))))) := by
    rw [hshape2]
    simp [List.append_assoc]
  have hplen3 : (("dexter".toList ++ g1 ++ "start".toList ++ g2 ++ "recording".toList) : List Char).length = 20 + g1.length + g2.length := by
    simp only [List.length_append, List.length_cons, List.length_nil, hl6, hl5, hl9, hl3,
      hlsc, hlob]
    omega
  have hd3 : t.drop (20 + g1.length + g2.length) = (g3 ++ ("for".toList ++ (g4 ++ ("scene".toList ++ ([' '] ++ (S ++ ([' '] ++ ("for".toList ++ (g5 ++ ("object".toList ++ ([' '] ++ O))))))))))) := by
    rw [hsplit3, ← hplen3]
    exact List.drop_left _ _
  have hsplit4 : t = ("dexter".toList ++ g1 ++ "start".toList ++ g2 ++ "recording".toList ++ g3 ++ "for".toList) ++ (g4 ++ ("scene".toList ++ ([' '] ++ (S ++ ([' '] ++ ("for".toList ++ (g5 ++ ("object".toList ++ ([' '] ++ O))))))))) := by
    rw [hshape2]
    simp [List.append_assoc]
  have hplen4 : (("dexter".toList ++ g1 ++ "start".toList ++ g2 ++ "recording".toList ++ g3 ++ "for".toList) : List Char).length = 23 + g1.length + g2.length + g3.length := by
    simp only [List.length_append, List.length_cons, List.length_nil, hl6, hl5, hl9, hl3,
      hlsc, hlob]
    omega
  have hd4 : t.drop (23 + g1.length + g2.length + g3.length) = (g4 ++ ("scene".toList ++ ([' '] ++ (S ++ ([' '] ++ ("for".toList ++ (g5 ++ ("object".toList ++ ([' '] ++ O))))))))) := by
    rw [hsplit4, ← hplen4]
    exact List.drop_left _ _
  have hsplit7 : t = ("dexter".toList ++ g1 ++ "start".toList ++ g2 ++ "recording".toList ++ g3 ++ "for".toList ++ g4 ++ "scene".toList ++ [' '] ++ S ++ [' ']) ++ ("for".toList ++ (g5 ++ ("object".toList ++ ([' '] ++ O)))) := by
    rw [hshape2]
    simp [List.append_assoc]
  have hplen7 : (("dexter".toList ++ g1 ++ "start".toList ++ g2 ++ "recording".toList ++ g3 ++ "for".toList ++ g4 ++ "scene".toList ++ [' '] ++ S ++ [' ']) : List Char).length = 30 + g1.length + g2.length + g3.length + g4.length + S.length := by
    simp only [List.length_append, List.length_cons, List.length_nil, hl6, hl5, hl9, hl3,
      hlsc, hlob]
    omega
  have hd7 : t.drop (30 + g1.length + g2.length + g3.length + g4.length + S.length) = ("for".toList ++ (g5 ++ ("object".toList ++ ([' '] ++ O)))) := by
    rw [hsplit7, ← hplen7]
    exact List.drop_left _ _
  have hsplit8 : t = ("dexter".toList ++ g1 ++ "start".toList ++ g2 ++ "recording".toList ++ g3 ++ "for".toList ++ g4 ++ "scene".toList ++ [' '] ++ S ++ [' '] ++ "for".toList) ++ (g5 ++ ("object".toList ++ ([' '] ++ O))) := by
    rw [hshape2]
    simp [List.append_assoc]
  have hplen8 : (("dexter".toList ++ g1 ++ "start".toList ++ g2 ++ "recording".toList ++ g3 ++ "for".toList ++ g4 ++ "scene".toList ++ [' '] ++ S ++ [' '] ++ "for".toList) : List Char).length = 33 + g1.length + g2.length + g3.length + g4.length + S.length := by
    simp only [List.length_append, List.length_cons, List.length_nil, hl6, hl5, hl9, hl3,
      hlsc, hlob]
    omega
  have hd8 : t.drop (33 + g1.length + g2.length + g3.length + g4.length + S.length) = (g5 ++ ("object".toList ++ ([' '] ++ O))) := by
    rw [hsplit8, ← hplen8]
    exact List.drop_left _ _
  have hall1 : ((g1 ++ ("start".toList ++ (g2 ++ ("recording".toList ++ (g3 ++ ("for".toList ++ (g4 ++ ("scene".toList ++ ([' '] ++ (S ++ ([' '] ++ ("for".toList ++ (g5 ++ ("object".toList ++ ([' '] ++ O))))))))))))))) : List Char).takeWhile jsDot = (g1 ++ ("start".toList ++ (g2 ++ ("recording".toList ++ (g3 ++ ("for".toList ++ (g4 ++ ("scene".toList ++ ([' '] ++ (S ++ ([' '] ++ ("for".toList ++ (g5 ++ ("object".toList ++ ([' '] ++ O))))))))))))))) :=
    List.takeWhile_eq_self_iff.mpr fun c hc => hdot c (mem_of_drop_eq hd1 c hc)
  have hall2 : ((g2 ++ ("recording".toList ++ (g3 ++ ("for".toList ++ (g4 ++ ("scene".toList ++ ([' '] ++ (S ++ ([' '] ++ ("for".toList ++ (g5 ++ ("object".toList ++ ([' '] ++ O))))))))))))) : List Char).takeWhile jsDot = (g2 ++ ("recording".toList ++ (g3 ++ ("for".toList ++ (g4 ++ ("scene".toList ++ ([' '] ++ (S ++ ([' '] ++ ("for".toList ++ (g5 ++ ("object".toList ++ ([' '] ++ O))))))))))))) :=
    List.takeWhile_eq_self_iff.mpr fun c hc => hdot c (mem_of_drop_eq hd2 c hc)
  have hall3 : ((g3 ++ ("for".toList ++ (g4 ++ ("scene".toList ++ ([' '] ++ (S ++ ([' '] ++ ("for".toList ++ (g5 ++ ("object".toList ++ ([' '] ++ O))))))))))) : List Char).takeWhile jsDot = (g3 ++ ("for".toList ++ (g4 ++ ("scene".toList ++ ([' '] ++ (S ++ ([' '] ++ ("for".toList ++ (g5 ++ ("object".toList ++ ([' '] ++ O))))))))))) :=
    List.takeWhile_eq_self_iff.mpr fun c hc => hdot c (mem_of_drop_eq hd3 c hc)
  have hall4 : ((g4 ++ ("scene".toList ++ ([' '] ++ (S ++ ([' '] ++ ("for".toList ++ (g5 ++ ("object".toList ++ ([' '] ++ O))))))))) : List Char).takeWhile jsDot = (g4 ++ ("scene".toList ++ ([' '] ++ (S ++ ([' '] ++ ("for".toList ++ (g5 ++ ("object".toList ++ ([' '] ++ O))))))))) :=
    List.takeWhile_eq_self_iff.mpr fun c hc => hdot c (mem_of_drop_eq hd4 c hc)
  have hall7 : (("for".toList ++ (g5 ++ ("object".toList ++ ([' '] ++ O)))) : List Char).takeWhile jsDot = ("for".toList ++ (g5 ++ ("object".toList ++ ([' '] ++ O)))) :=
    List.takeWhile_eq_self_iff.mpr fun c hc => hdot c (mem_of_drop_eq hd7 c hc)
  have hall8 : ((g5 ++ ("object".toList ++ ([' '] ++ O))) : List Char).takeWhile jsDot = (g5 ++ ("object".toList ++ ([' '] ++ O))) :=
    List.takeWhile_eq_self_iff.mpr fun c hc => hdot c (mem_of_drop_eq hd8 c hc)
  have hOt : ∀ c ∈ O, c ∈ t := by
    intro c hc
    rw [hshape]
    simp only [List.mem_append]
    tauto
  have hODdot : ∀ c ∈ O.dropWhile jsWs, jsDot c = true :=
    fun c hc => hdot c (hOt c (mem_of_mem_dropWhile _ _ _ hc))
  have hSDnf : ∀ c ∈ S.dropWhile jsWs, nonForChar c = true :=
    fun c hc => hSfor c (mem_of_mem_dropWhile _ _ _ hc)
  have hTW10 : ((O.dropWhile jsWs) : List Char).takeWhile jsDot = (O.dropWhile jsWs) :=
    List.takeWhile_eq_self_iff.mpr hODdot
  have h10 : runPat [RItem.cap 2 jsDot] (O.dropWhile jsWs) (⟨some (S.dropWhile jsWs ++ [' ']), none⟩ : Caps) = some (⟨some (S.dropWhile jsWs ++ [' ']), some (O.dropWhile jsWs)⟩ : Caps) := by
    apply cap_choose 2 jsDot _ _ _ _ (((O.dropWhile jsWs) : List Char).takeWhile jsDot).length ?_
      (Nat.le_refl _) ?_ ?_
    · rw [hTW10]
      have hpos := List.length_pos.mpr hOne
      omega
    · rw [take_takeWhile_length, drop_takeWhile_length, hTW10]
      rw [show ((O.dropWhile jsWs) : List Char).dropWhile jsDot = [] from
        dropWhile_eq_nil_of_all _ _ hODdot]
      rfl
    · intro j h1 h2
      omega
  have hTW9 : (([' '] ++ O) : List Char).takeWhile jsWs = ' ' :: O.takeWhile jsWs := by
    rw [show (([' '] ++ O) : List Char) = ' ' :: O from rfl, List.takeWhile_cons, if_pos (by decide)]
  have h9 : runPat [RItem.plus jsWs,
        RItem.cap 2 jsDot] ([' '] ++ O) (⟨some (S.dropWhile jsWs ++ [' ']), none⟩ : Caps) = some (⟨some (S.dropWhile jsWs ++ [' ']), some (O.dropWhile jsWs)⟩ : Caps) := by
    apply plus_choose _ _ _ _ _ ((([' '] ++ O) : List Char).takeWhile jsWs).length ?_ (Nat.le_refl _)
      ?_ ?_
    · rw [hTW9, List.length_cons]
      omega
    · rw [drop_takeWhile_length]
      rw [show (([' '] ++ O) : List Char).dropWhile jsWs = O.dropWhile jsWs from by
        rw [show (([' '] ++ O) : List Char) = ' ' :: O from rfl, List.dropWhile_cons,
          if_pos (by decide)]]
      exact h10
    · intro j h1 h2
      omega
  have h8 : runPat [RItem.star jsDot,
        RItem.lit "object".toList,
        RItem.plus jsWs,
        RItem.cap 2 jsDot] (g5 ++ ("object".toList ++ ([' '] ++ O))) (⟨some (S.dropWhile jsWs ++ [' ']), none⟩ : Caps) = some (⟨some (S.dropWhile jsWs ++ [' ']), some (O.dropWhile jsWs)⟩ : Caps) := by
    apply star_lit_by_fail "object".toList [RItem.plus jsWs,
        RItem.cap 2 jsDot] (g5 ++ ("object".toList ++ ([' '] ++ O))) t
      (33 + g1.length + g2.length + g3.length + g4.length + S.length) g5.length (⟨some (S.dropWhile jsWs ++ [' ']), none⟩ : Caps) (⟨some (S.dropWhile jsWs ++ [' ']), some (O.dropWhile jsWs)⟩ : Caps)
      hd8 hall8 ?_ ?_ ?_
    · rw [List.length_append]
      omega
    · intro j hj1 hj2
      apply bool_eq_false
      intro hpre
      have := hObj _ hpre
      omega
    · rw [List.drop_left, runPat_lit_consume]
      exact h9
  have h7 : runPat [RItem.star jsDot,
        RItem.lit "for".toList,
        RItem.star jsDot,
        RItem.lit "object".toList,
        RItem.plus jsWs,
        RItem.cap 2 jsDot] ("for".toList ++ (g5 ++ ("object".toList ++ ([' '] ++ O)))) (⟨some (S.dropWhile jsWs ++ [' ']), none⟩ : Caps) = some (⟨some (S.dropWhile jsWs ++ [' ']), some (O.dropWhile jsWs)⟩ : Caps) := by
    apply star_lit_by_fail "for".toList [RItem.star jsDot,
        RItem.lit "object".toList,
        RItem.plus jsWs,
        RItem.cap 2 jsDot] ("for".toList ++ (g5 ++ ("object".toList ++ ([' '] ++ O)))) t
      (30 + g1.length + g2.length + g3.length + g4.length + S.length) 0 (⟨some (S.dropWhile jsWs ++ [' ']), none⟩ : Caps) (⟨some (S.dropWhile jsWs ++ [' ']), some (O.dropWhile jsWs)⟩ : Caps) hd7 hall7 (Nat.zero_le _) ?_ ?_
    · intro j hj1 hj2
      apply bool_eq_false
      intro hpre
      rcases hFor _ hpre with he | he <;> omega
    · rw [List.drop_zero, runPat_lit_consume]
      exact h8
  have hTW6 : ((S.dropWhile jsWs ++ ([' '] ++ ("for".toList ++ (g5 ++ ("object".toList ++ ([' '] ++ O)))))) : List Char).takeWhile nonForChar = S.dropWhile jsWs ++ [' '] := by
    rw [takeWhile_append_all nonForChar _ _ hSDnf]
    congr 1
  have hDW6 : ((S.dropWhile jsWs ++ ([' '] ++ ("for".toList ++ (g5 ++ ("object".toList ++ ([' '] ++ O)))))) : List Char).dropWhile nonForChar = ("for".toList ++ (g5 ++ ("object".toList ++ ([' '] ++ O)))) := by
    rw [dropWhile_append_all nonForChar _ _ hSDnf]
    rw [show (([' '] ++ ("for".toList ++ (g5 ++ ("object".toList ++ ([' '] ++ O))))) : List Char) = ' ' :: ('f' :: ("or".toList ++ (g5 ++ ("object".toList ++ ([' '] ++ O))))) from rfl]
    rw [List.dropWhile_cons, if_pos (by decide), List.dropWhile_cons, if_neg (by decide)]
    rfl
  have h6 : runPat [RItem.cap 1 nonForChar,
        RItem.star jsDot,
        RItem.lit "for".toList,
        RItem.star jsDot,
        RItem.lit "object".toList,
        RItem.plus jsWs,
        RItem.cap 2 jsDot] (S.dropWhile jsWs ++ ([' '] ++ ("for".toList ++ (g5 ++ ("object".toList ++ ([' '] ++ O)))))) (⟨none, none⟩ : Caps) = some (⟨some (S.dropWhile jsWs ++ [' ']), some (O.dropWhile jsWs)⟩ : Caps) := by
    apply cap_choose 1 nonForChar _ _ _ _ (((S.dropWhile jsWs ++ ([' '] ++ ("for".toList ++ (g5 ++ ("object".toList ++ ([' '] ++ O)))))) : List Char).takeWhile nonForChar).length ?_
      (Nat.le_refl _) ?_ ?_
    · rw [hTW6, List.length_append, List.length_singleton]
      omega
    · rw [take_takeWhile_length, drop_takeWhile_length, hTW6, hDW6]
      exact h7
    · intro j h1 h2
      omega
  have hTW5 : (([' '] ++ (S ++ ([' '] ++ ("for".toList ++ (g5 ++ ("object".toList ++ ([' '] ++ O))))))) : List Char).takeWhile jsWs = ' ' :: S.takeWhile jsWs := by
    rw [show (([' '] ++ (S ++ ([' '] ++ ("for".toList ++ (g5 ++ ("object".toList ++ ([' '] ++ O))))))) : List Char) = ' ' :: (S ++ ([' '] ++ ("for".toList ++ (g5 ++ ("object".toList ++ ([' '] ++ O)))))) from rfl, List.takeWhile_cons,
      if_pos (by decide)]
    rw [takeWhile_append_stop jsWs S _ hSne]
  have h5 : runPat [RItem.plus jsWs,
        RItem.cap 1 nonForChar,
        RItem.star jsDot,
        RItem.lit "for".toList,
        RItem.star jsDot,
        RItem.lit "object".toList,
        RItem.plus jsWs,
        RItem.cap 2 jsDot] ([' '] ++ (S ++ ([' '] ++ ("for".toList ++ (g5 ++ ("object".toList ++ ([' '] ++ O))))))) (⟨none, none⟩ : Caps) = some (⟨some (S.dropWhile jsWs ++ [' ']), some (O.dropWhile jsWs)⟩ : Caps) := by
    apply plus_choose _ _ _ _ _ ((([' '] ++ (S ++ ([' '] ++ ("for".toList ++ (g5 ++ ("object".toList ++ ([' '] ++ O))))))) : List Char).takeWhile jsWs).length ?_ (Nat.le_refl _)
      ?_ ?_
    · rw [hTW5, List.length_cons]
      omega
    · rw [drop_takeWhile_length]
      rw [show (([' '] ++ (S ++ ([' '] ++ ("for".toList ++ (g5 ++ ("object".toList ++ ([' '] ++ O))))))) : List Char).dropWhile jsWs = (S ++ ([' '] ++ ("for".toList ++ (g5 ++ ("object".toList ++ ([' '] ++ O)))))).dropWhile jsWs from by
        rw [show (([' '] ++ (S ++ ([' '] ++ ("for".toList ++ (g5 ++ ("object".toList ++ ([' '] ++ O))))))) : List Char) = ' ' :: (S ++ ([' '] ++ ("for".toList ++ (g5 ++ ("object".toList ++ ([' '] ++ O)))))) from rfl, List.dropWhile_cons,
          if_pos (by decide)]]
      rw [dropWhile_append_rest jsWs S _ hSne]
      exact h6
    · intro j h1 h2
      omega
  have h4 : runPat [RItem.star jsDot,
        RItem.lit "scene".toList,
        RItem.plus jsWs,
        RItem.cap 1 nonForChar,
        RItem.star jsDot,
        RItem.lit "for".toList,
        RItem.star jsDot,
        RItem.lit "object".toList,
        RItem.plus jsWs,
        RItem.cap 2 jsDot] (g4 ++ ("scene".toList ++ ([' '] ++ (S ++ ([' '] ++ ("for".toList ++ (g5 ++ ("object".toList ++ ([' '] ++ O))))))))) (⟨none, none⟩ : Caps) = some (⟨some (S.dropWhile jsWs ++ [' ']), some (O.dropWhile jsWs)⟩ : Caps) := by
    apply star_lit_by_fail "scene".toList [RItem.plus jsWs,
        RItem.cap 1 nonForChar,
        RItem.star jsDot,
        RItem.lit "for".toList,
        RItem.star jsDot,
        RItem.lit "object".toList,
        RItem.plus jsWs,
        RItem.cap 2 jsDot] (g4 ++ ("scene".toList ++ ([' '] ++ (S ++ ([' '] ++ ("for".toList ++ (g5 ++ ("object".toList ++ ([' '] ++ O))))))))) t
      (23 + g1.length + g2.length + g3.length) g4.length (⟨none, none⟩ : Caps) (⟨some (S.dropWhile jsWs ++ [' ']), some (O.dropWhile jsWs)⟩ : Caps) hd4 hall4 ?_ ?_ ?_
    · rw [List.length_append]
      omega
    · intro j hj1 hj2
      apply bool_eq_false
      intro hpre
      have := hScene _ hpre
      omega
    · rw [List.drop_left, runPat_lit_consume]
      exact h5
  have h3 : runPat [RItem.star jsDot,
        RItem.lit "for".toList,
        RItem.star jsDot,
        RItem.lit "scene".toList,
        RItem.plus jsWs,
        RItem.cap 1 nonForChar,
        RItem.star jsDot,
        RItem.lit "for".toList,
        RItem.star jsDot,
        RItem.lit "object".toList,
        RItem.plus jsWs,
        RItem.cap 2 jsDot] (g3 ++ ("for".toList ++ (g4 ++ ("scene".toList ++ ([' '] ++ (S ++ ([' '] ++ ("for".toList ++ (g5 ++ ("object".toList ++ ([' '] ++ O))))))))))) (⟨none, none⟩ : Caps) = some (⟨some (S.dropWhile jsWs ++ [' ']), some (O.dropWhile jsWs)⟩ : Caps) := by
    apply star_choose jsDot [RItem.lit "for".toList,
        RItem.star jsDot,
        RItem.lit "scene".toList,
        RItem.plus jsWs,
        RItem.cap 1 nonForChar,
        RItem.star jsDot,
        RItem.lit "for".toList,
        RItem.star jsDot,
        RItem.lit "object".toList,
        RItem.plus jsWs,
        RItem.cap 2 jsDot] (g3 ++ ("for".toList ++ (g4 ++ ("scene".toList ++ ([' '] ++ (S ++ ([' '] ++ ("for".toList ++ (g5 ++ ("object".toList ++ ([' '] ++ O))))))))))) (⟨none, none⟩ : Caps) (⟨some (S.dropWhile jsWs ++ [' ']), some (O.dropWhile jsWs)⟩ : Caps) g3.length ?_ ?_ ?_
    · rw [hall3, List.length_append]
      omega
    · rw [List.drop_left, runPat_lit_consume]
      exact h4
    · intro j hj1 hjm
      have hdj : ((g3 ++ ("for".toList ++ (g4 ++ ("scene".toList ++ ([' '] ++ (S ++ ([' '] ++ ("for".toList ++ (g5 ++ ("object".toList ++ ([' '] ++ O))))))))))) : List Char).drop j =
          t.drop (20 + g1.length + g2.length + j) := by
        rw [← hd3, List.drop_drop]
      rw [hdj]
      by_cases hpre : ("for".toList).isPrefixOf
          (t.drop (20 + g1.length + g2.length + j)) = true
      · rcases hFor _ hpre with he | he
        · exact absurd he (by omega)
        · rw [show 20 + g1.length + g2.length + j = 30 + g1.length + g2.length + g3.length + g4.length + S.length from by omega]
          rw [hd7, runPat_lit_consume]
          apply star_none
          intro i him
          apply runPat_lit_fails
          rw [← hd8, List.drop_drop]
          apply bool_eq_false
          intro hsc
          have := hScene _ hsc
          omega
      · exact runPat_lit_fails _ _ _ _ (bool_eq_false hpre)
  have h2 : runPat [RItem.star jsDot,
        RItem.lit "recording".toList,
        RItem.star jsDot,
        RItem.lit "for".toList,
        RItem.star jsDot,
        RItem.lit "scene".toList,
        RItem.plus jsWs,
        RItem.cap 1 nonForChar,
        RItem.star jsDot,
        RItem.lit "for".toList,
        RItem.star jsDot,
        RItem.lit "object".toList,
        RItem.plus jsWs,
        RItem.cap 2 jsDot] (g2 ++ ("recording".toList ++ (g3 ++ ("for".toList ++ (g4 ++ ("scene".toList ++ ([' '] ++ (S ++ ([' '] ++ ("for".toList ++ (g5 ++ ("object".toList ++ ([' '] ++ O))))))))))))) (⟨none, none⟩ : Caps) = some (⟨some (S.dropWhile jsWs ++ [' ']), some (O.dropWhile jsWs)⟩ : Caps) := by
    apply star_lit_by_fail "recording".toList [RItem.star jsDot,
        RItem.lit "for".toList,
        RItem.star jsDot,
        RItem.lit "scene".toList,
        RItem.plus jsWs,
        RItem.cap 1 nonForChar,
        RItem.star jsDot,
        RItem.lit "for".toList,
        RItem.star jsDot,
        RItem.lit "object".toList,
        RItem.plus jsWs,
        RItem.cap 2 jsDot] (g2 ++ ("recording".toList ++ (g3 ++ ("for".toList ++ (g4 ++ ("scene".toList ++ ([' '] ++ (S ++ ([' '] ++ ("for".toList ++ (g5 ++ ("object".toList ++ ([' '] ++ O))))))))))))) t
      (11 + g1.length) g2.length (⟨none, none⟩ : Caps) (⟨some (S.dropWhile jsWs ++ [' ']), some (O.dropWhile jsWs)⟩ : Caps) hd2 hall2 ?_ ?_ ?_
    · rw [List.length_append]
      omega
    · intro j hj1 hj2
      apply bool_eq_false
      intro hpre
      have := hRec _ hpre
      omega
    · rw [List.drop_left, runPat_lit_consume]
      exact h3
  have h1 : runPat [RItem.star jsDot,
        RItem.lit "start".toList,
        RItem.star jsDot,
        RItem.lit "recording".toList,
        RItem.star jsDot,
        RItem.lit "for".toList,
        RItem.star jsDot,
        RItem.lit "scene".toList,
        RItem.plus jsWs,
        RItem.cap 1 nonForChar,
        RItem.star jsDot,
        RItem.lit "for".toList,
        RItem.star jsDot,
        RItem.lit "object".toList,
        RItem.plus jsWs,
        RItem.cap 2 jsDot] (g1 ++ ("start".toList ++ (g2 ++ ("recording".toList ++ (g3 ++ ("for".toList ++ (g4 ++ ("scene".toList ++ ([' '] ++ (S ++ ([' '] ++ ("for".toList ++ (g5 ++ ("object".toList ++ ([' '] ++ O))))))))))))))) (⟨none, none⟩ : Caps) = some (⟨some (S.dropWhile jsWs ++ [' ']), some (O.dropWhile jsWs)⟩ : Caps) := by
    apply star_lit_by_fail "start".toList [RItem.star jsDot,
        RItem.lit "recording".toList,
        RItem.star jsDot,
        RItem.lit "for".toList,
        RItem.star jsDot,
        RItem.lit "scene".toList,
        RItem.plus jsWs,
        RItem.cap 1 nonForChar,
        RItem.star jsDot,
        RItem.lit "for".toList,
        RItem.star jsDot,
        RItem.lit "object".toList,
        RItem.plus jsWs,
        RItem.cap 2 jsDot] (g1 ++ ("start".toList ++ (g2 ++ ("recording".toList ++ (g3 ++ ("for".toList ++ (g4 ++ ("scene".toList ++ ([' '] ++ (S ++ ([' '] ++ ("for".toList ++ (g5 ++ ("object".toList ++ ([' '] ++ O))))))))))))))) t 6 g1.length (⟨none, none⟩ : Caps) (⟨some (S.dropWhile jsWs ++ [' ']), some (O.dropWhile jsWs)⟩ : Caps)
      hd1 hall1 ?_ ?_ ?_
    · rw [List.length_append]
      omega
    · intro j hj1 hj2
      apply bool_eq_false
      intro hpre
      have := hStart _ hpre
      omega
    · rw [List.drop_left, runPat_lit_consume]
      exact h2
  apply execRegex_of_head
  unfold START_RECORDING_REGEX
  rw [hshape2, runPat_lit_consume]
  exact h1

/-- Claim C1 (amended). For a finalized normalized transcript of the
shape `dexter <g1> start <g2> recording <g3> for <g4> scene S for <g5>
object O` with arbitrary free text in the gaps, the Command Interpreter
emits StartRecording with scene `S` and object `O` after label
normalization, under these provisos: every character of `S` lies
outside the class `[^for]` complement, i.e. `S` contains none of the
letters `f`, `o`, `r` (forced by the counterexample); `S` and `O` each
contain a non-whitespace character; and the anchor words `start`,
`recording`, `for`, `scene`, `object` occur in the transcript only at
the positions the shape itself places them, while `stop` occurs
nowhere. -/
theorem start_command_free_text (t g1 g2 g3 g4 g5 S O : List Char)
    (hshape : t = "dexter".toList ++ g1 ++ "start".toList ++ g2 ++ "recording".toList ++ g3 ++
      "for".toList ++ g4 ++ "scene ".toList ++ S ++ " for".toList ++ g5 ++ "object ".toList ++ O)
    (hdot : ∀ c ∈ t, jsDot c = true)
    (hSfor : ∀ c ∈ S, nonForChar c = true)
    (hSne : S.dropWhile jsWs ≠ []) (hOne : O.dropWhile jsWs ≠ [])
    (hStop : ∀ i, ("stop".toList).isPrefixOf (t.drop i) = false)
    (hStart : ∀ i, ("start".toList).isPrefixOf (t.drop i) = true → i = 6 + g1.length)
    (hRec : ∀ i, ("recording".toList).isPrefixOf (t.drop i) = true → i = 11 + g1.length + g2.length)
    (hFor : ∀ i, ("for".toList).isPrefixOf (t.drop i) = true →
      i = 20 + g1.length + g2.length + g3.length ∨ i = 30 + g1.length + g2.length + g3.length + g4.length + S.length)
    (hScene : ∀ i, ("scene".toList).isPrefixOf (t.drop i) = true → i = 23 + g1.length + g2.length + g3.length + g4.length)
    (hObj : ∀ i, ("object".toList).isPrefixOf (t.drop i) = true → i = 33 + g1.length + g2.length + g3.length + g4.length + S.length + g5.length) :
    specStartGrammar t S O ∧
      classify t = Command.startRecording (normalizeLabel S) (normalizeLabel O) := by
  refine ⟨⟨g1, g2, g3, g4, g5, hshape⟩, ?_⟩
  have hstop := stopRegex_no_stop t hStop
  have hstart := startRegex_free_success t g1 g2 g3 g4 g5 S O hshape hdot hSfor hSne hOne
    hStart hRec hFor hScene hObj
  simp only [classify, hstop, hstart, Option.getD_some]
  rw [normalizeLabel_dropWhile_space, normalizeLabel_dropWhile]

/-- Witness for the amended Claim C1 theorem: a transcript with real
free text in every gap and multi-word labels. -/
theorem start_command_free_text_witness :
    specStartGrammar
        "dexter please start now recording this for the scene lab desk for the object knife".toList
        "lab desk".toList "knife".toList ∧
      classify "dexter please start now recording this for the scene lab desk for the object knife".toList =
        Command.startRecording (normalizeLabel "lab desk".toList) (normalizeLabel "knife".toList) :=
  start_command_free_text
    "dexter please start now recording this for the scene lab desk for the object knife".toList
    " please ".toList " now ".toList " this ".toList " the ".toList " the ".toList
    "lab desk".toList "knife".toList
    (by decide) (by decide) (by decide) (by decide) (by decide)
    (prefix_nowhere_of_bounded _ _ (by decide) (by decide))
    (prefix_positions_of_bounded _ _ _ (by decide) (by decide))
    (prefix_positions_of_bounded _ _ _ (by decide) (by decide))
    (prefix_positions_of_bounded _ _ _ (by decide) (by decide))
    (prefix_positions_of_bounded _ _ _ (by decide) (by decide))
    (prefix_positions_of_bounded _ _ _ (by decide) (by decide))
